import Mathlib

/-!
Verification development for the rlm-Matryoshka document-analysis engine.

This file shallowly embeds the parts of the source that the verified
properties are about:

* `src/src/logic/relational-solver.ts` — the primitive library
  (`PRIMITIVES`), composition evaluation (`evaluateComposition`), the
  candidate generators and `searchComposition`, the date/currency/number
  parsers (`parseDateImpl`, `parseCurrencyImpl`, `parseNumberImpl`), the
  quarter specializer (`buildQuarterMapper`) and `synthesizeFromExamples`.
* `src/src/synthesis/relational/interpreter.ts` — the `Expr` AST,
  `testProgram`, the candidate enumeration (`enumerateCandidates`) and
  the synthesis engine's minimum-example check (`SynthesisEngine.synthesize`).
* `src/src/synthesis/relational/coordinator.ts` — the sandbox helpers
  `grep` (flag defaulting and the zero-width-match scan loop) and
  `locate_line`.

Strings are embedded as `List Char` (`Str`).  JavaScript numbers are
embedded as exact fractions (`JNum`, an unnormalized `Int` numerator /
`Int` denominator pair); JS `===` on numbers is numeric equality, which
is cross-multiplication on fractions.  The JS regular expressions that
the embedded code uses are fixed, concrete patterns; they are compiled
by hand into a small backtracking matcher (`RItem` / `matchL`) whose
candidate order mirrors the leftmost-match, greedy-with-backtracking
semantics of JS regexes on those patterns.
-/

namespace RLM

/-- Strings are lists of characters (code units). -/
abbrev Str := List Char

/-- The ASCII whitespace characters recognised by JS `trim` / `\s`
(the embedded documents are ASCII; the extra Unicode space classes of
JS never occur in them). -/
def isJsSpace (c : Char) : Bool :=
  c = ' ' ∨ c = '\t' ∨ c = '\n' ∨ c = '\r' ∨ c = '\x0B' ∨ c = '\x0C'

/-- JS `String.prototype.trim`. -/
def jsTrim (s : Str) : Str :=
  ((s.dropWhile isJsSpace).reverse.dropWhile isJsSpace).reverse

/-- Numeric value of a list of decimal digits. -/
def digitsVal (s : Str) : Nat :=
  s.foldl (fun a c => a * 10 + (c.toNat - '0'.toNat)) 0

/-- The character for a single decimal digit. -/
def digitChar (n : Nat) : Char := Char.ofNat ('0'.toNat + n)

/-- Decimal rendering of a natural number, with a digit-count budget
(`n` has at most `n + 1` digits, so the budget never runs out). -/
def natToStrGo : Nat → Nat → Str
  | 0, _ => []
  | fuel + 1, n =>
    if n < 10 then [digitChar n]
    else natToStrGo fuel (n / 10) ++ [digitChar (n % 10)]

/-- Decimal rendering of a natural number. -/
def natToStr (n : Nat) : Str := natToStrGo (n + 1) n

/-- Decimal rendering of an integer. -/
def intToStr (i : Int) : Str :=
  if i < 0 then '-' :: natToStr (-i).toNat else natToStr i.toNat

/-- JS numbers, embedded as exact (unnormalized) fractions.  Every
number the embedded code produces is a decimal fraction, so this is an
exact model; the invariant `0 < den` is maintained by all operations
below. -/
structure JNum where
  num : Int
  den : Int
deriving DecidableEq, Repr

instance : Inhabited JNum := ⟨⟨0, 1⟩⟩

/-- Injection of an integer. -/
def JNum.ofInt (n : Int) : JNum := ⟨n, 1⟩

instance : OfNat JNum n := ⟨JNum.ofInt n⟩

/-- JS `===` on two numbers (numeric equality of the fractions). -/
def JNum.numEq (a b : JNum) : Bool := a.num * b.den = b.num * a.den

/-- Numeric strict order (denominators are positive by invariant). -/
def JNum.numLt (a b : JNum) : Bool := a.num * b.den < b.num * a.den

def JNum.add (a b : JNum) : JNum := ⟨a.num * b.den + b.num * a.den, a.den * b.den⟩

def JNum.mul (a b : JNum) : JNum := ⟨a.num * b.num, a.den * b.den⟩

def JNum.neg (a : JNum) : JNum := ⟨-a.num, a.den⟩

/-- Division by a positive integer constant. -/
def JNum.divNat (a : JNum) (d : Nat) : JNum := ⟨a.num, a.den * d⟩

/-- Computes `10 ^ e` for an integer exponent. -/
def JNum.pow10 (e : Int) : JNum :=
  if e < 0 then ⟨1, (10 : Int) ^ (-e).toNat⟩ else ⟨(10 : Int) ^ e.toNat, 1⟩

/-- The decimal fraction `intPart.fracDigits`. -/
def JNum.ofDecimal (intPart : Nat) (fracDigits : Str) : JNum :=
  ⟨intPart * (10 : Int) ^ fracDigits.length + digitsVal fracDigits,
   (10 : Int) ^ fracDigits.length⟩

/-- Strip trailing zeros of a fractional-digit string. -/
def stripTrailingZeros (s : Str) : Str :=
  (s.reverse.dropWhile (· = '0')).reverse

/-- Left-pad a digit string with zeros to width `k`. -/
def padLeftZeros (k : Nat) (s : Str) : Str :=
  List.replicate (k - s.length) '0' ++ s

/-- JS `String(n)` for an embedded number.  Integers render in decimal;
decimal fractions render with a fractional part (trailing zeros
stripped, as JS does).  Every number produced by the embedded parsers
has a denominator dividing a power of ten, so the fallback branch is
unreachable in practice. -/
def JNum.render (q : JNum) : Str :=
  let n := q.num
  let d := q.den.toNat
  if d = 0 then "NaN".data
  else if n % (d : Int) = 0 then intToStr (n / (d : Int))
  else
    match (List.range 31).find? (fun k => (10 : Nat) ^ k % d = 0) with
    | some k =>
      let scaled := (n.natAbs * ((10 : Nat) ^ k / d))
      let ip := scaled / 10 ^ k
      let fp := scaled % 10 ^ k
      let frac := stripTrailingZeros (padLeftZeros k (natToStr fp))
      (if n < 0 then ['-'] else []) ++ natToStr ip ++
        (if frac.isEmpty then [] else '.' :: frac)
    | none => "~nondecimal".data

/-- The JS values that flow through the composition pipeline: `null`,
numbers (including `NaN` as its own variant, since `NaN !== NaN`), and
strings.  The `index` primitive asks `Array.isArray`, which is false
for every such value (the pipeline never produces an array). -/
inductive JSVal where
  | null : JSVal
  | nan : JSVal
  | num (q : JNum) : JSVal
  | str (s : Str) : JSVal
deriving DecidableEq, Repr

instance : Inhabited JSVal := ⟨JSVal.null⟩

/-- JS strict equality `===` restricted to the values above: no
coercion across types, numeric equality on numbers, `NaN` unequal to
everything (including itself). -/
def jsEq : JSVal → JSVal → Bool
  | JSVal.null, JSVal.null => true
  | JSVal.num a, JSVal.num b => a.numEq b
  | JSVal.str a, JSVal.str b => a = b
  | _, _ => false

/-- JS `typeof`. -/
def jsTypeof : JSVal → Str
  | JSVal.null => "object".data
  | JSVal.nan => "number".data
  | JSVal.num _ => "number".data
  | JSVal.str _ => "string".data

/-- JS `String(v)`. -/
def jsString : JSVal → Str
  | JSVal.null => "null".data
  | JSVal.nan => "NaN".data
  | JSVal.num q => q.render
  | JSVal.str s => s

/-- JS `parseInt(s, 10)`: skip whitespace, optional sign, leading
decimal digits; no digits means `NaN` (`none`). -/
def jsParseInt (s : Str) : Option JNum :=
  let s1 := s.dropWhile isJsSpace
  let sp : Int × Str :=
    match s1 with
    | '+' :: r => (1, r)
    | '-' :: r => (-1, r)
    | _ => (1, s1)
  let ds := sp.2.takeWhile Char.isDigit
  if ds.isEmpty then none else some ⟨sp.1 * digitsVal ds, 1⟩

/-- JS `parseFloat(s)`: skip whitespace, optional sign, decimal digits
with optional fractional part and optional exponent; trailing garbage
is ignored; no digits at all means `NaN` (`none`).  (JS would parse the
literal "Infinity", which never occurs in the embedded data.) -/
def jsParseFloat (s : Str) : Option JNum :=
  let s1 := s.dropWhile isJsSpace
  let sp : Int × Str :=
    match s1 with
    | '+' :: r => (1, r)
    | '-' :: r => (-1, r)
    | _ => (1, s1)
  let ds := sp.2.takeWhile Char.isDigit
  let s2 := sp.2.dropWhile Char.isDigit
  let fr : Str × Str :=
    match s2 with
    | '.' :: r => (r.takeWhile Char.isDigit, r.dropWhile Char.isDigit)
    | _ => ([], s2)
  if ds.isEmpty ∧ fr.1.isEmpty then none
  else
    let mant := JNum.ofDecimal (digitsVal ds) fr.1
    let expVal : Int :=
      match fr.2 with
      | e :: r =>
        if e = 'e' ∨ e = 'E' then
          let esr : Int × Str :=
            match r with
            | '+' :: rr => (1, rr)
            | '-' :: rr => (-1, rr)
            | _ => (1, r)
          let eds := esr.2.takeWhile Char.isDigit
          if eds.isEmpty then 0 else esr.1 * (digitsVal eds : Int)
        else 0
      | [] => 0
    some ((JNum.mul ⟨sp.1, 1⟩ mant).mul (JNum.pow10 expVal))

/-- JS `s.replace(/,/g, "")` (and the other global single-character
removals): drop every occurrence of `c`. -/
def removeAll (c : Char) (s : Str) : Str := s.filter (fun x => ¬(x = c))

/-- JS `s.replace(",", ".")` with a plain string pattern: replace only
the first occurrence. -/
def replaceFirst : Str → Char → Char → Str
  | [], _, _ => []
  | x :: xs, c, r => if x = c then r :: xs else x :: replaceFirst xs c r

/-- Global replacement of a literal (non-empty) pattern string, as JS
`s.replace(new RegExp(from, "g"), to)` does for the literal patterns
the generators construct (only `","` occurs). -/
def replaceAllStr (pat rep : Str) (s : Str) : Str :=
  if pat.isEmpty then s else go s s.length
where
  go : Str → Nat → Str
    | _, 0 => []
    | [], _ => []
    | s@(x :: xs), fuel + 1 =>
      if pat.isPrefixOf s then rep ++ go (s.drop pat.length) fuel
      else x :: go xs fuel

/-- JS `s.split(delim)` with a string delimiter (the empty delimiter
splits into single characters). -/
def splitOn (delim : Str) (s : Str) : List Str :=
  if delim.isEmpty then s.map (fun c => [c]) else go s s.length []
where
  go : Str → Nat → Str → List Str
    | s, 0, acc => [acc.reverse ++ s]
    | [], _, acc => [acc.reverse]
    | s@(x :: xs), fuel + 1, acc =>
      if delim.isPrefixOf s then
        acc.reverse :: go (s.drop delim.length) fuel []
      else go xs fuel (x :: acc)

/-- JS `lastIndexOf` for a single character (`-1` when absent). -/
def lastIndexOf (s : Str) (c : Char) : Int :=
  match s.reverse.findIdx? (· == c) with
  | some j => ((s.length - 1 - j : Nat) : Int)
  | none => -1

/-- Join with newlines (JS `array.join('\n')`). -/
def joinNL : List Str → Str
  | [] => []
  | [x] => x
  | x :: xs => x ++ '\n' :: joinNL xs

/-! Part: A small regex matcher

The embedded source uses a fixed catalog of concrete regular
expressions.  Each is compiled by hand into a list of `RItem`s; the
matcher below enumerates candidate matches in the order a JS regex
engine tries them (greedy quantifiers longest-first, with
backtracking), so the first element of the result list is the match JS
would report.  Repetitions only occur over single-character classes in
the catalog, which keeps the matcher structurally recursive. -/

/-- A capture-free item of a compiled regular expression (the catalog
has no nested groups, so group bodies are lists of these). -/
inductive GItem where
  /-- a literal character -/
  | lit (c : Char) : GItem
  /-- exactly one character of a class -/
  | one (p : Char → Bool) : GItem
  /-- greedy `*` over a character class -/
  | many (p : Char → Bool) : GItem
  /-- greedy `+` over a character class -/
  | many1 (p : Char → Bool) : GItem
  /-- greedy `{lo,hi}` over a character class -/
  | rep (p : Char → Bool) (lo hi : Nat) : GItem
  /-- optional single character of a class (`x?`) -/
  | opt (p : Char → Bool) : GItem

/-- A top-level item: either a capture-free item or a numbered capture
group whose body is capture-free. -/
inductive RItem where
  | simple (g : GItem) : RItem
  | group (idx : Nat) (sub : List GItem) : RItem

/-- Candidate repetition counts in greedy order: `m, m-1, …, lo`. -/
def greedyCounts (lo m : Nat) : List Nat :=
  (List.range (m + 1 - lo)).map (fun j => m - j)

/-- Length of the maximal run of class `p` at the front of `s`. -/
def runLen (p : Char → Bool) (s : Str) : Nat :=
  (s.takeWhile p).length

/-- Candidate rest-of-strings after matching one capture-free item
against the front of `s`, in backtracking priority order (greedy
longest-first). -/
def matchOne : GItem → Str → List Str
  | GItem.lit c, s =>
    match s with
    | [] => []
    | c' :: s' => if c' = c then [s'] else []
  | GItem.one p, s =>
    match s with
    | [] => []
    | c :: s' => if p c then [s'] else []
  | GItem.many p, s =>
    (greedyCounts 0 (runLen p s)).map (fun k => s.drop k)
  | GItem.many1 p, s =>
    (greedyCounts 1 (runLen p s)).map (fun k => s.drop k)
  | GItem.rep p lo hi, s =>
    (greedyCounts lo (min hi (runLen p s))).map (fun k => s.drop k)
  | GItem.opt p, s =>
    match s with
    | [] => [[]]
    | c :: s' => if p c then [s', s] else [s]

/-- Candidate rest-of-strings after matching a capture-free item list. -/
def matchGs : List GItem → Str → List Str
  | [], s => [s]
  | g :: rest, s => (matchOne g s).flatMap (fun s' => matchGs rest s')

/-- All ways to match a top-level item list against the front of `s`,
as `(captures, rest-of-string)` pairs in backtracking priority order. -/
def matchL : List RItem → Str → List (List (Nat × Str) × Str)
  | [], s => [([], s)]
  | RItem.simple g :: rest, s =>
    (matchOne g s).flatMap (fun s' => matchL rest s')
  | RItem.group idx sub :: rest, s =>
    (matchGs sub s).flatMap (fun s' =>
      (matchL rest s').map (fun pr =>
        ((idx, s.take (s.length - s'.length)) :: pr.1, pr.2)))

/-- Anchored match (`^…$`): the whole string must be consumed. -/
def anchoredMatch (re : List RItem) (s : Str) : Option (List (Nat × Str)) :=
  ((matchL re s).find? (fun pr => pr.2.isEmpty)).map (fun pr => pr.1)

/-- Unanchored leftmost search (JS `s.match(re)` without flags): try
each start position in order; report the 0-based index, the matched
substring and the captures of the first (leftmost, greedy-preferred)
match. -/
def searchFrom (re : List RItem) : Str → Nat → Option (Nat × Str × List (Nat × Str))
  | [], i =>
    match matchL re [] with
    | pr :: _ => some (i, [], pr.1)
    | [] => none
  | c :: s', i =>
    match matchL re (c :: s') with
    | pr :: _ => some (i, (c :: s').take (s'.length + 1 - pr.2.length), pr.1)
    | [] => searchFrom re s' (i + 1)

/-- Matched prefix test (a `^…`-anchored regex with no end anchor). -/
def matchesAtStart (re : List RItem) (s : Str) : Bool :=
  ¬(matchL re s).isEmpty

/-- Capture group `g` of a match result (empty when absent). -/
def capOf (caps : List (Nat × Str)) (g : Nat) : Str :=
  (((caps.find? (fun pr => pr.1 == g)).map (fun pr => pr.2))).getD []

/-- Shorthand: top-level literal. -/
def rlit (c : Char) : RItem := RItem.simple (GItem.lit c)

/-- Shorthand: top-level single class character. -/
def rone (p : Char → Bool) : RItem := RItem.simple (GItem.one p)

/-- Shorthand: top-level greedy `*`. -/
def rmany (p : Char → Bool) : RItem := RItem.simple (GItem.many p)

/-- Shorthand: top-level greedy `+`. -/
def rmany1 (p : Char → Bool) : RItem := RItem.simple (GItem.many1 p)

/-- Shorthand: top-level greedy `{lo,hi}`. -/
def rrep (p : Char → Bool) (lo hi : Nat) : RItem := RItem.simple (GItem.rep p lo hi)

/-- Shorthand: top-level optional character. -/
def ropt (p : Char → Bool) : RItem := RItem.simple (GItem.opt p)

/-! Part: Character classes and compiled patterns -/

/-- Source `[A-Za-z]` -/
def isAsciiAlpha (c : Char) : Bool :=
  ('A' ≤ c ∧ c ≤ 'Z') ∨ ('a' ≤ c ∧ c ≤ 'z')

/-- Source `\d` -/
def isDig (c : Char) : Bool := c.isDigit

/-- Source `.` (any character except line terminators) -/
def isDot (c : Char) : Bool := ¬(c = '\n' ∨ c = '\r')

/-- Source `relational-solver.ts` — `/^(\d+)-(\d+)$/` (quarter-mapper output shape). -/
def reYearMonth : List RItem :=
  [RItem.group 1 [GItem.many1 isDig], rlit '-', RItem.group 2 [GItem.many1 isDig]]

/-- Source `relational-solver.ts` — `/Q(\d)-(\d+)/` (quarter-mapper input shape). -/
def reQuarterCap : List RItem :=
  [rlit 'Q', RItem.group 1 [GItem.one isDig], rlit '-',
   RItem.group 2 [GItem.many1 isDig]]

/-- Source `relational-solver.ts` — `/Q\d-\d+/` (quarter special-case trigger). -/
def reQuarterTest : List RItem :=
  [rlit 'Q', rone isDig, rlit '-', rmany1 isDig]

/-- Source `searchComposition` — `/^\d4-\d2/` prefix test for date-like string
outputs (`\d4` abbreviates a repetition of exactly 4). -/
def reDateLead : List RItem :=
  [rrep isDig 4 4, rlit '-', rrep isDig 2 2]

/-- Source `parseDateImpl` — ISO `^(\d4)-(\d2)-(\d2)$`. -/
def reIso : List RItem :=
  [RItem.group 1 [GItem.rep isDig 4 4], rlit '-',
   RItem.group 2 [GItem.rep isDig 2 2], rlit '-',
   RItem.group 3 [GItem.rep isDig 2 2]]

/-- Source `parseDateImpl` — US/EU `^(\d1,2)\/(\d1,2)\/(\d4)$`. -/
def reSlashDate : List RItem :=
  [RItem.group 1 [GItem.rep isDig 1 2], rlit '/',
   RItem.group 2 [GItem.rep isDig 1 2], rlit '/',
   RItem.group 3 [GItem.rep isDig 4 4]]

/-- Source `parseDateImpl` — natural `^([A-Za-z]+)\s+(\d1,2),?\s+(\d4)$`. -/
def reNatural : List RItem :=
  [RItem.group 1 [GItem.many1 isAsciiAlpha], rmany1 isJsSpace,
   RItem.group 2 [GItem.rep isDig 1 2], ropt (fun c => c = ','),
   rmany1 isJsSpace, RItem.group 3 [GItem.rep isDig 4 4]]

/-- Source `parseDateImpl` — `^(\d1,2)\s+([A-Za-z]+)\s+(\d4)$`. -/
def reDmySpace : List RItem :=
  [RItem.group 1 [GItem.rep isDig 1 2], rmany1 isJsSpace,
   RItem.group 2 [GItem.many1 isAsciiAlpha], rmany1 isJsSpace,
   RItem.group 3 [GItem.rep isDig 4 4]]

/-- Source `parseDateImpl` — `^(\d1,2)-([A-Za-z]+)-(\d2)$` (D-Mon-YY). -/
def reDmyShort : List RItem :=
  [RItem.group 1 [GItem.rep isDig 1 2], rlit '-',
   RItem.group 2 [GItem.many1 isAsciiAlpha], rlit '-',
   RItem.group 3 [GItem.rep isDig 2 2]]

/-- Source `parseCurrencyImpl` — `^\(([^)]+)\)$`. -/
def reNegParen : List RItem :=
  [rlit '(', RItem.group 1 [GItem.many1 (fun c => ¬(c = ')'))], rlit ')']

/-- Source `parseCurrencyImpl` — `^-(.+)$`. -/
def reNegMinus : List RItem :=
  [rlit '-', RItem.group 1 [GItem.many1 isDot]]

/-- Source `parseCurrencyImpl` — `^([^,]+),(\d2)$` (single decimal comma). -/
def reCommaDec : List RItem :=
  [RItem.group 1 [GItem.many1 (fun c => ¬(c = ','))], rlit ',',
   RItem.group 2 [GItem.rep isDig 2 2]]

/-- Source `parseNumberImpl` — `^([\d.,]+)%$`. -/
def rePercent : List RItem :=
  [RItem.group 1 [GItem.many1 (fun c => c.isDigit ∨ c = '.' ∨ c = ',')], rlit '%']

/-- Source `parseNumberImpl` — `^[\d.]+e[+-]?\d+$/i`. -/
def reSci : List RItem :=
  [rmany1 (fun c => c.isDigit ∨ c = '.'), rone (fun c => c = 'e' ∨ c = 'E'),
   ropt (fun c => c = '+' ∨ c = '-'), rmany1 isDig]

/-! Part: `relational-solver.ts` helper functions -/

/-- The month-name table of `relational-solver.ts`. -/
def MONTHS : List (Str × Str) :=
  [("jan".data, "01".data), ("january".data, "01".data),
   ("feb".data, "02".data), ("february".data, "02".data),
   ("mar".data, "03".data), ("march".data, "03".data),
   ("apr".data, "04".data), ("april".data, "04".data),
   ("may".data, "05".data),
   ("jun".data, "06".data), ("june".data, "06".data),
   ("jul".data, "07".data), ("july".data, "07".data),
   ("aug".data, "08".data), ("august".data, "08".data),
   ("sep".data, "09".data), ("september".data, "09".data),
   ("oct".data, "10".data), ("october".data, "10".data),
   ("nov".data, "11".data), ("november".data, "11".data),
   ("dec".data, "12".data), ("december".data, "12".data)]

/-- Lookup in the `MONTHS` table. -/
def monthsLookup (k : Str) : Option Str :=
  (MONTHS.find? (fun pr => pr.1 == k)).map (fun pr => pr.2)

/-- JS `s.toLowerCase()` (ASCII). -/
def jsToLower (s : Str) : Str := s.map Char.toLower

/-- JS `s.toUpperCase()` (ASCII). -/
def jsToUpper (s : Str) : Str := s.map Char.toUpper

/-- JS `day.padStart(2, "0")`. -/
def padStart2 (s : Str) : Str :=
  if s.length < 2 then List.replicate (2 - s.length) '0' ++ s else s

/-- Source `parseDateImpl` of `relational-solver.ts`: try the recognized date
shapes in order and normalize to `YYYY-MM-DD`; no shape matches means
`null`.  Note there is no calendar-validity check: the D-Mon-YY branch
expands the two-digit year (`< 50` means `20YY`, otherwise `19YY`) and
pads the day, whatever day value the digits denote. -/
def parseDateImpl (s : Str) (formatHint : Option Str) : Option Str :=
  let trimmed := jsTrim s
  match anchoredMatch reIso trimmed with
  | some _ => some trimmed
  | none =>
  -- the US block only returns when the hint is exactly "US"
  match (if formatHint = some ("US".data) then anchoredMatch reSlashDate trimmed else none) with
  | some caps =>
    some (capOf caps 3 ++ '-' :: padStart2 (capOf caps 1) ++ '-' :: padStart2 (capOf caps 2))
  | none =>
  match (if formatHint = some ("EU".data) then anchoredMatch reSlashDate trimmed else none) with
  | some caps =>
    some (capOf caps 3 ++ '-' :: padStart2 (capOf caps 2) ++ '-' :: padStart2 (capOf caps 1))
  | none =>
  match (anchoredMatch reNatural trimmed).bind (fun caps =>
    (monthsLookup (jsToLower (capOf caps 1))).map (fun month =>
      capOf caps 3 ++ '-' :: month ++ '-' :: padStart2 (capOf caps 2))) with
  | some r => some r
  | none =>
  match (anchoredMatch reDmySpace trimmed).bind (fun caps =>
    (monthsLookup (jsToLower (capOf caps 2))).map (fun month =>
      capOf caps 3 ++ '-' :: month ++ '-' :: padStart2 (capOf caps 1))) with
  | some r => some r
  | none =>
  match (anchoredMatch reDmyShort trimmed).bind (fun caps =>
    (monthsLookup (jsToLower (capOf caps 2))).map (fun month =>
      let shortYear := capOf caps 3
      let year :=
        if (jsParseInt shortYear).elim false (fun q => q.numLt ⟨50, 1⟩)
        then '2' :: '0' :: shortYear else '1' :: '9' :: shortYear
      year ++ '-' :: month ++ '-' :: padStart2 (capOf caps 1))) with
  | some r => some r
  | none => none

/-- Strip one leading currency symbol (`trimmed.replace(/^[$€£¥₹]/, "")`). -/
def stripCurrencySymbol (s : Str) : Str :=
  match s with
  | [] => []
  | c :: rest =>
    if c = '$' ∨ c = '€' ∨ c = '£' ∨ c = '¥' ∨ c = '₹' then rest else c :: rest

/-- The body of `parseCurrencyImpl`, with an explicit recursion budget.
Each recursive call is on a capture that is a strict substring of the
(trimmed) argument, so a budget of `s.length + 1` never runs out. -/
def parseCurrencyGo : Nat → Str → Option JNum
  | 0, _ => none
  | fuel + 1, s =>
    let trimmed := jsTrim s
    match anchoredMatch reNegParen trimmed with
    | some caps =>
      match parseCurrencyGo fuel (capOf caps 1) with
      | some inner => some inner.neg
      | none => none
    | none =>
    match anchoredMatch reNegMinus trimmed with
    | some caps =>
      match parseCurrencyGo fuel (capOf caps 1) with
      | some inner => some inner.neg
      | none => none
    | none =>
      let cleaned := jsTrim (stripCurrencySymbol trimmed)
      let hasComma := cleaned.contains ','
      let hasDot := cleaned.contains '.'
      let cleaned :=
        if hasComma ∧ hasDot then
          if lastIndexOf cleaned ',' > lastIndexOf cleaned '.' then
            -- EU format: drop the thousands dots, decimal comma to dot
            replaceFirst (removeAll '.' cleaned) ',' '.'
          else
            -- US format: drop the thousands commas
            removeAll ',' cleaned
        else if hasComma then
          if (anchoredMatch reCommaDec cleaned).isSome then
            replaceFirst cleaned ',' '.'
          else
            removeAll ',' cleaned
        else cleaned
      jsParseFloat cleaned

/-- Source `parseCurrencyImpl` of `relational-solver.ts`: parenthesized and
minus-prefixed amounts negate the recursive parse; otherwise strip one
currency symbol, pick the EU or US thousands/decimal convention by the
positions of the last comma and the last dot, and `parseFloat` (NaN
means `null`, i.e. `none`). -/
def parseCurrencyImpl (s : Str) : Option JNum :=
  parseCurrencyGo (s.length + 1) s

/-- Source `parseNumberImpl` of `relational-solver.ts`: a `%` suffix divides
by 100; scientific notation goes to `parseFloat` directly; otherwise
commas are stripped and the rest goes to `parseFloat`. -/
def parseNumberImpl (s : Str) : Option JNum :=
  let trimmed := jsTrim s
  match anchoredMatch rePercent trimmed with
  | some caps =>
    match jsParseFloat (removeAll ',' (capOf caps 1)) with
    | some q => some (q.divNat 100)
    | none => none
  | none =>
    if (anchoredMatch reSci trimmed).isSome then jsParseFloat trimmed
    else jsParseFloat (removeAll ',' trimmed)

/-! Part: The primitive library and composition evaluation -/

/-- The `Primitive` enumeration of `relational-solver.ts` (the regex
match primitive is `match_` because `match` is reserved in Lean). -/
inductive Primitive where
  | match_ : Primitive
  | replace : Primitive
  | split : Primitive
  | parseInt : Primitive
  | parseFloat : Primitive
  | parseDate : Primitive
  | parseCurrency : Primitive
  | parseNumber : Primitive
  | toUpperCase : Primitive
  | toLowerCase : Primitive
  | trim : Primitive
  | index : Primitive
deriving DecidableEq, Repr

/-- The argument record of a composition step (each primitive reads
only the fields it uses; `fromS`/`toS` stand for the source's
`from`/`to`, which are reserved in Lean). -/
structure Args where
  pattern : Option Str := none
  group : Option Nat := none
  fromS : Option Str := none
  toS : Option Str := none
  delim : Option Str := none
  index : Option Int := none
  format : Option Str := none
deriving DecidableEq, Repr

structure CompositionStep where
  primitive : Primitive
  args : Args
deriving DecidableEq, Repr

structure Composition where
  steps : List CompositionStep
deriving DecidableEq, Repr

/-- Hand-compilation of the regex pattern strings that the candidate
generators of `relational-solver.ts` put into `match` steps (the
`COMMON_PATTERNS` catalog plus the quarter pattern).  The source builds
a `RegExp` from the string at run time; here each catalog string maps
to its compiled form, and strings outside the catalog — which no
generated candidate contains — are not interpreted. -/
def compilePattern (p : Str) : Option (List RItem) :=
  if p = ("\\$([\\d,]+)").data then
    some [rlit '$', RItem.group 1 [GItem.many1 (fun c => c.isDigit ∨ c = ',')]]
  else if p = ("\\$([\\d,.]+)").data then
    some [rlit '$', RItem.group 1 [GItem.many1 (fun c => c.isDigit ∨ c = ',' ∨ c = '.')]]
  else if p = ("(\\d+)").data then
    some [RItem.group 1 [GItem.many1 isDig]]
  else if p = ("([\\d,]+)").data then
    some [RItem.group 1 [GItem.many1 (fun c => c.isDigit ∨ c = ',')]]
  else if p = ("(\\d+)%").data then
    some [RItem.group 1 [GItem.many1 isDig], rlit '%']
  else if p = ("#(\\d+)").data then
    some [rlit '#', RItem.group 1 [GItem.many1 isDig]]
  else if p = (":\\s*([^)]+)").data then
    some [rlit ':', rmany isJsSpace, RItem.group 1 [GItem.many1 (fun c => ¬(c = ')'))]]
  else if p = ("Q(\\d)-(\\d+)").data then
    some reQuarterCap
  else if p = ("[A-Za-z]+\\s+\\d+,?\\s+\\d+").data then
    some [rmany1 isAsciiAlpha, rmany1 isJsSpace, rmany1 isDig,
          ropt (fun c => c = ','), rmany1 isJsSpace, rmany1 isDig]
  else if p = ("\\d+-[A-Za-z]+-\\d+").data then
    some [rmany1 isDig, rlit '-', rmany1 isAsciiAlpha, rlit '-', rmany1 isDig]
  else none

/-- The `PRIMITIVES` table of `relational-solver.ts`: the semantics of
one primitive applied to a value, given its argument record. -/
def PRIMITIVES : Primitive → JSVal → Args → JSVal
  | Primitive.match_, input, args =>
    match input with
    | JSVal.str s =>
      let group := args.group.getD 0
      match compilePattern (args.pattern.getD []) with
      | none => JSVal.null
      | some re =>
        match searchFrom re s 0 with
        | none => JSVal.null
        | some r =>
          if group = 0 then JSVal.str r.2.1
          else
            match r.2.2.find? (fun pr => pr.1 == group) with
            | some pr => JSVal.str pr.2
            | none => JSVal.null
    | _ => JSVal.null
  | Primitive.replace, input, args =>
    match input with
    | JSVal.str s =>
      JSVal.str (replaceAllStr (args.fromS.getD []) (args.toS.getD []) s)
    | _ => JSVal.null
  | Primitive.split, input, args =>
    match input with
    | JSVal.str s =>
      let parts := splitOn (args.delim.getD []) s
      match args.index with
      | some idx =>
        if 0 ≤ idx ∧ idx < (parts.length : Int)
        then JSVal.str (parts.getD idx.toNat []) else JSVal.null
      | none => JSVal.null
    | _ => JSVal.null
  | Primitive.parseInt, input, _ =>
    match input with
    | JSVal.null => JSVal.nan
    | v =>
      match jsParseInt (removeAll ',' (jsString v)) with
      | some q => JSVal.num q
      | none => JSVal.nan
  | Primitive.parseFloat, input, _ =>
    match input with
    | JSVal.null => JSVal.nan
    | v =>
      match jsParseFloat (removeAll ',' (jsString v)) with
      | some q => JSVal.num q
      | none => JSVal.nan
  | Primitive.parseDate, input, args =>
    match input with
    | JSVal.str s =>
      match parseDateImpl s args.format with
      | some r => JSVal.str r
      | none => JSVal.null
    | _ => JSVal.null
  | Primitive.parseCurrency, input, _ =>
    match input with
    | JSVal.str s =>
      match parseCurrencyImpl s with
      | some q => JSVal.num q
      | none => JSVal.null
    | _ => JSVal.null
  | Primitive.parseNumber, input, _ =>
    match input with
    | JSVal.str s =>
      match parseNumberImpl s with
      | some q => JSVal.num q
      | none => JSVal.null
    | _ => JSVal.null
  | Primitive.toUpperCase, input, _ =>
    match input with
    | JSVal.str s => JSVal.str (jsToUpper s)
    | _ => JSVal.null
  | Primitive.toLowerCase, input, _ =>
    match input with
    | JSVal.str s => JSVal.str (jsToLower s)
    | _ => JSVal.null
  | Primitive.trim, input, _ =>
    match input with
    | JSVal.str s => JSVal.str (jsTrim s)
    | _ => JSVal.null
  | Primitive.index, _input, _ =>
    -- `Array.isArray(input)` is false for every value the pipeline
    -- produces (there is no array variant), so this always yields null
    JSVal.null

/-- The loop body of `evaluateComposition`: apply the steps in order,
returning `null` as soon as a step produces `null` (the source also
checks `undefined`, which the primitives above never produce). -/
def evalSteps : List CompositionStep → JSVal → JSVal
  | [], current => current
  | step :: rest, current =>
    let next := PRIMITIVES step.primitive current step.args
    if next = JSVal.null then JSVal.null else evalSteps rest next

/-- Source `evaluateComposition` of `relational-solver.ts`. -/
def evaluateComposition (composition : Composition) (input : Str) : JSVal :=
  evalSteps composition.steps (JSVal.str input)

/-- Observation harness for the evaluation loop: the sequence of values
actually passed to a primitive while evaluating the steps (the loop
stops feeding steps after a `null`). -/
def primInputs : List CompositionStep → JSVal → List JSVal
  | [], _ => []
  | step :: rest, current =>
    let next := PRIMITIVES step.primitive current step.args
    current :: (if next = JSVal.null then [] else primInputs rest next)

/-! Part: Candidate generators and composition search -/

/-- An input/output example (`relational-solver.ts`: the input is a
string, the output an arbitrary value). -/
structure Example where
  input : Str
  output : JSVal
deriving DecidableEq, Repr

/-- The `COMMON_PATTERNS` catalog (pattern string and capture group). -/
def COMMON_PATTERNS : List (Str × Nat) :=
  [(("\\$([\\d,]+)").data, 1),
   (("\\$([\\d,.]+)").data, 1),
   (("(\\d+)").data, 1),
   (("([\\d,]+)").data, 1),
   (("(\\d+)%").data, 1),
   (("#(\\d+)").data, 1),
   ((":\\s*([^)]+)").data, 1),
   (("Q(\\d)-(\\d+)").data, 0),
   (("[A-Za-z]+\\s+\\d+,?\\s+\\d+").data, 0),
   (("\\d+-[A-Za-z]+-\\d+").data, 0)]

/-- A `match` step with the given pattern and group. -/
def matchStep (pattern : Str) (group : Nat) : CompositionStep :=
  { primitive := Primitive.match_,
    args := { pattern := some pattern, group := some group } }

/-- A step with no arguments. -/
def step0 (p : Primitive) : CompositionStep := { primitive := p, args := {} }

/-- The `replace(",", "")` step used by the number generators. -/
def replaceCommaStep : CompositionStep :=
  { primitive := Primitive.replace,
    args := { fromS := some (",").data, toS := some [] } }

/-- Source `generateNumberExtractionCandidates` (in yield order). -/
def generateNumberExtractionCandidates : List Composition :=
  [⟨[step0 Primitive.parseInt]⟩,
   ⟨[step0 Primitive.parseFloat]⟩,
   ⟨[step0 Primitive.parseCurrency]⟩,
   ⟨[step0 Primitive.parseNumber]⟩]
  ++ COMMON_PATTERNS.flatMap (fun pg =>
    [⟨[matchStep pg.1 pg.2, step0 Primitive.parseInt]⟩,
     ⟨[matchStep pg.1 pg.2, step0 Primitive.parseFloat]⟩,
     ⟨[matchStep pg.1 pg.2, step0 Primitive.parseCurrency]⟩,
     ⟨[matchStep pg.1 pg.2, step0 Primitive.parseNumber]⟩,
     ⟨[matchStep pg.1 pg.2, replaceCommaStep, step0 Primitive.parseInt]⟩,
     ⟨[matchStep pg.1 pg.2, replaceCommaStep, step0 Primitive.parseFloat]⟩])

/-- A `split` step with the given delimiter and index. -/
def splitStep (delim : Str) (idx : Nat) : CompositionStep :=
  { primitive := Primitive.split,
    args := { delim := some delim, index := some (idx : Int) } }

/-- Source `generateStringExtractionCandidates` (in yield order). -/
def generateStringExtractionCandidates : List Composition :=
  [⟨[step0 Primitive.trim]⟩,
   ⟨[step0 Primitive.toUpperCase]⟩,
   ⟨[step0 Primitive.toLowerCase]⟩,
   ⟨[step0 Primitive.parseDate]⟩]
  ++ COMMON_PATTERNS.flatMap (fun pg =>
    [⟨[matchStep pg.1 pg.2]⟩,
     ⟨[matchStep pg.1 pg.2, step0 Primitive.parseDate]⟩])
  ++ ([(",").data, (";").data, (":").data, (" ").data, ("-").data, ("/").data]).flatMap
    (fun d => (List.range 5).flatMap (fun idx =>
      [⟨[splitStep d idx]⟩,
       ⟨[splitStep d idx, step0 Primitive.trim]⟩]))

/-- Source `generateQuarterMappingCandidates`. -/
def generateQuarterMappingCandidates : List Composition :=
  [⟨[matchStep (("Q(\\d)-(\\d+)").data) 0]⟩]

/-- Source `searchComposition` of `relational-solver.ts`: pick the generators
by the `typeof` of the first example's output, then return the first
candidate (in generator order) whose evaluation strictly equals every
example's output.  (The source's try/catch around the evaluation can
only catch the unreachable unknown-primitive throw.) -/
def searchComposition (examples : List Example) : Option Composition :=
  match examples with
  | [] => none
  | e0 :: _ =>
    let outputType := jsTypeof e0.output
    let generators : List (List Composition) :=
      (if outputType = ("number").data then
        [generateNumberExtractionCandidates]
       else if outputType = ("string").data then
        [generateStringExtractionCandidates, generateQuarterMappingCandidates]
       else [])
      ++ (if outputType = ("string").data ∧ matchesAtStart reDateLead (jsString e0.output)
          then [generateNumberExtractionCandidates] else [])
    (generators.flatMap id).find? (fun candidate =>
      examples.all (fun ex => jsEq (evaluateComposition candidate ex.input) ex.output))

/-! Part: The quarter specializer and `synthesizeFromExamples` -/

/-- The quarter and year captured by `/Q(\d)-(\d+)/` on a string. -/
def quarterSearch (s : Str) : Option (Str × Str) :=
  (searchFrom reQuarterCap s 0).map (fun r => (capOf r.2.2 1, capOf r.2.2 2))

/-- JS object assignment `table[quarter] = month` on a string-keyed
record modelled as an association list. -/
def recordSet (t : List (Str × Str)) (k v : Str) : List (Str × Str) :=
  if t.any (fun pr => pr.1 == k) then
    t.map (fun pr => if pr.1 == k then (k, v) else pr)
  else t ++ [(k, v)]

/-- The example-scanning loop of `buildQuarterMapper`: build the
quarter-to-month table, failing (`none`) when an input has no quarter
shape, an output is not `year-month`, or the output year differs from
the input year. -/
def quarterTableOf : List Example → List (Str × Str) → Option (List (Str × Str))
  | [], table => some table
  | ex :: rest, table =>
    match quarterSearch ex.input with
    | none => none
    | some qy =>
      match anchoredMatch reYearMonth (jsString ex.output) with
      | none => none
      | some caps =>
        if ¬(capOf caps 1 = qy.2) then none
        else quarterTableOf rest (recordSet table qy.1 (capOf caps 2))

/-- The closure returned by `buildQuarterMapper`: inputs without the
quarter shape pass through; otherwise the month comes from the learned
table, and for quarters not in the table it is inferred as
`(q-1)*3+1`, zero-padded. -/
def mapperOf (table : List (Str × Str)) (input : Str) : Str :=
  match quarterSearch input with
  | none => input
  | some qy =>
    let month :=
      match table.find? (fun pr => pr.1 == qy.1) with
      | some pr => pr.2
      | none =>
        match jsParseInt qy.1 with
        | some q => padStart2 (JNum.render (((q.add ⟨-1, 1⟩).mul ⟨3, 1⟩).add ⟨1, 1⟩))
        | none => padStart2 ("NaN").data
    qy.2 ++ '-' :: month

/-- Source `buildQuarterMapper` of `relational-solver.ts`. -/
def buildQuarterMapper (examples : List Example) : Option (Str → Str) :=
  match quarterTableOf examples [] with
  | none => none
  | some table =>
    if table.isEmpty then none else some (mapperOf table)

/-- The synthesis result record (`success`, the found composition, and
the executable transformation). -/
structure SynthesisResult where
  success : Bool
  composition : Option Composition
  apply : Str → JSVal

/-- The composition-search tail of `synthesizeFromExamples` (lines
578-594 of `relational-solver.ts`, shared by all fall-through paths). -/
def fallbackSearch (examples : List Example) : SynthesisResult :=
  match searchComposition examples with
  | some composition =>
    { success := true, composition := some composition,
      apply := fun input => evaluateComposition composition input }
  | none =>
    { success := false, composition := none, apply := fun _ => JSVal.null }

/-- Source `synthesizeFromExamples` of `relational-solver.ts`: empty example
lists fail immediately; when some input has the `Q\d-\d+` shape the
quarter specializer is tried first and its mapper is returned if it
reproduces every example; otherwise the generic composition search
runs. -/
def synthesizeFromExamples (examples : List Example) : SynthesisResult :=
  if examples.isEmpty then
    { success := false, composition := none, apply := fun _ => JSVal.null }
  else if examples.any (fun e => (searchFrom reQuarterTest e.input 0).isSome) then
    match buildQuarterMapper examples with
    | some mapper =>
      if examples.all (fun ex => jsEq (JSVal.str (mapper ex.input)) ex.output) then
        { success := true,
          composition := some ⟨[matchStep (("Q(\\d)-(\\d+)").data) 0]⟩,
          apply := fun input => JSVal.str (mapper input) }
      else fallbackSearch examples
    | none => fallbackSearch examples
  else fallbackSearch examples

/-! Part: `interpreter.ts`: the expression AST, candidate enumeration and
`testProgram` -/

/-- The `Expr` AST of `interpreter.ts` (constructor names follow the
source's node types, renamed where Lean reserves the word). -/
inductive Expr where
  | litN (value : JNum) : Expr
  | litS (value : Str) : Expr
  | varE (name : Str) : Expr
  | add (left right : Expr) : Expr
  | sub (left right : Expr) : Expr
  | mul (left right : Expr) : Expr
  | div (left right : Expr) : Expr
  | concat (left right : Expr) : Expr
  | match_ (str : Expr) (pattern : Str) (group : Nat) : Expr
  | replace (str : Expr) (pattern : Str) (replacement : Str) : Expr
  | parseInt (str : Expr) : Expr
  | parseFloat (str : Expr) : Expr
  | ite_ (cond thenE elseE : Expr) : Expr
deriving DecidableEq, Repr

/-- An input/output example of `interpreter.ts` (both sides are
`unknown` there). -/
structure ExampleU where
  input : JSVal
  output : JSVal
deriving DecidableEq, Repr

/-- Source `testProgram` of `interpreter.ts`: compile the expression once and
require the run on every example input to strictly equal (`===`) the
example output.  Compilation and execution go through dynamically
generated JavaScript (`new Function`), so the execution function is a
parameter here. -/
def testProgram (execF : Expr → JSVal → JSVal) (expr : Expr)
    (examples : List ExampleU) : Bool :=
  examples.all (fun ex => jsEq (execF expr ex.input) ex.output)

/-- The `programStructureo` alternatives of `interpreter.ts`, in
`conde` order: the kind tag and capture group of each program shape. -/
structure ProgramStructure where
  kind : Str
  group : Nat
deriving DecidableEq, Repr

instance : Inhabited ProgramStructure := ⟨⟨[], 0⟩⟩

def programStructures : List ProgramStructure :=
  [⟨("parseFloat_match").data, 1⟩,
   ⟨("parseInt_match").data, 1⟩,
   ⟨("parseFloat_replace_match").data, 1⟩,
   ⟨("match").data, 0⟩,
   ⟨("match").data, 1⟩]

/-- The `EXTRACTION_PATTERNS` catalog of `interpreter.ts`, in `conde`
order. -/
def EXTRACTION_PATTERNS : List Str :=
  [("\\$([\\d,]+)").data,
   ("\\$([\\d,\\.]+)").data,
   ("(\\d+)%").data,
   ("(\\d+)").data,
   ("([\\d,]+)").data,
   ((":\\s*\\$?([\\d,]+)").data)]

/-- A candidate of `enumerateCandidates`: a program structure paired
with a pattern. -/
structure Candidate where
  struct : ProgramStructure
  pattern : Str
deriving DecidableEq, Repr

instance : Inhabited Candidate := ⟨⟨default, []⟩⟩

/-- Modelled from the spec: `enumerateCandidates` of `interpreter.ts`
runs the miniKanren query `exist (structure, pattern) [programStructureo
structure, patterno pattern, eq q (structure, pattern)]` under
`run maxCandidates`; the miniKanren stream machinery it relies on
(`src/src/minikanren/goals.ts` and `streams.ts`) is not part of the
source tree, so its enumeration order is taken from the spec: a
deterministic order, breadth-first by template (program-structure)
index and then by pattern index. -/
def enumerateCandidates (maxCandidates : Nat) : List Candidate :=
  (programStructures.flatMap (fun st =>
    EXTRACTION_PATTERNS.map (fun p => ⟨st, p⟩))).take maxCandidates

/-- The synthesis configuration of the engine in `interpreter.ts`. -/
structure SynthesisConfig where
  maxCandidates : Nat
  timeoutMs : Nat
  minExamples : Nat
deriving DecidableEq, Repr

def DEFAULT_CONFIG : SynthesisConfig :=
  { maxCandidates := 100, timeoutMs := 5000, minExamples := 2 }

/-- The constraint kinds the LLM can provide. -/
inductive ConstraintType where
  | extraction : ConstraintType
  | transform : ConstraintType
  | filter : ConstraintType
deriving DecidableEq, Repr

/-- A synthesis constraint (description plus examples). -/
structure Constraint where
  ctype : ConstraintType
  description : Str
  examples : List ExampleU
deriving DecidableEq, Repr

/-- The engine's result record (`synthesisTimeMs` is wall-clock time in
the source and is abstracted to 0 here). -/
structure SynthesisEngineResult where
  success : Bool
  program : Option Expr := none
  code : Option Str := none
  testedExamples : Nat
  passedExamples : Nat
  error : Option Str := none
  candidatesExplored : Nat
  synthesisTimeMs : Nat := 0
deriving DecidableEq, Repr

/-- The engine's needs-more-examples message:
`Need at least ${minExamples} examples, got ${N}`. -/
def needMoreMsg (need got : Nat) : Str :=
  ("Need at least ").data ++ natToStr need ++ (" examples, got ").data ++ natToStr got

/-- Source `SynthesisEngine.synthesize` of `interpreter.ts`: reject
constraints with fewer than `minExamples` examples up front; the
remaining work (template synthesis, then the miniKanren fallback)
executes dynamically generated JavaScript and is abstracted as the
`rest` parameter. -/
def SynthesisEngine.synthesize (rest : Constraint → SynthesisEngineResult)
    (config : SynthesisConfig) (constraint : Constraint) : SynthesisEngineResult :=
  if constraint.examples.length < config.minExamples then
    { success := false,
      error := some (needMoreMsg config.minExamples constraint.examples.length),
      testedExamples := 0, passedExamples := 0,
      candidatesExplored := 0, synthesisTimeMs := 0 }
  else rest constraint

/-! Part: `coordinator.ts`: the sandbox `grep` and `locate_line` -/

/-- The flag-defaulting prelude of the sandbox `grep`: start from the
caller's flags (`flags || ''`, so a missing argument is the empty
string) and append each of `g`, `m`, `i` that is not already present. -/
def grepFlags (flags : Option Str) : Str :=
  let f := match flags with
    | none => []
    | some s => s
  let f := if f.contains 'g' then f else f ++ ['g']
  let f := if f.contains 'm' then f else f ++ ['m']
  let f := if f.contains 'i' then f else f ++ ['i']
  f

/-- One `grep` hit: the matched text, its enclosing line, the 1-based
line number and the character index (capture groups omitted — the
claims concern positions). -/
structure GrepHit where
  matchStr : Str
  line : Str
  lineNum : Nat
  index : Nat
deriving DecidableEq, Repr

/-- The `while ((match = regex.exec(context)) !== null)` loop of the
sandbox `grep`.  `exec lastIndex` abstracts `regex.exec` on a global
regex whose `lastIndex` is the argument: it reports the next match as
`(index, length)` with `lastIndex ≤ index` and `index + length` within
the document, or `none`.  After an empty match the loop advances
`lastIndex` by one (the source's `regex.lastIndex++`), otherwise the
scan resumes after the match.  The explicit budget mirrors the loop's
iteration count; a budget of `doc.length + 1` always suffices (see
`grep_scan_terminates_empty_hits_per_boundary`). -/
def grepScan (exec : Nat → Option (Nat × Nat)) (doc : Str)
    (linesArr : List Str) : Nat → Nat → List GrepHit
  | 0, _ => []
  | fuel + 1, lastIndex =>
    match exec lastIndex with
    | none => []
    | some il =>
      let lineNum := ((doc.take il.1).filter (fun c => c = '\n')).length + 1
      let hit : GrepHit :=
        { matchStr := (doc.drop il.1).take il.2,
          line := linesArr.getD (lineNum - 1) [],
          lineNum := lineNum,
          index := il.1 }
      hit :: grepScan exec doc linesArr fuel
        (if il.2 = 0 then il.1 + 1 else il.1 + il.2)

/-- Source `regex.exec` for the empty pattern on a document of length
`docLen`: the empty regex matches (with width 0) at every position up
to and including `docLen`; beyond that `exec` returns `null`. -/
def execEmpty (docLen : Nat) (lastIndex : Nat) : Option (Nat × Nat) :=
  if lastIndex ≤ docLen then some (lastIndex, 0) else none

/-- Source `locate_line` of `coordinator.ts`: extract lines by 1-based line
number; negative numbers count from the end; a start index outside the
line array yields the empty string; end indices clamp; start and end
swap when reversed.  (`endOpt` is the source's optional `end`
parameter.) -/
def locate_line (linesArr : List Str) (start : Int) (endOpt : Option Int) : Str :=
  let totalLines : Int := (linesArr.length : Int)
  let startIdx : Int := if start < 0 then totalLines + start else start - 1
  let endIdx : Int := match endOpt with
    | none => startIdx
    | some e => if e < 0 then totalLines + e else e - 1
  if startIdx < 0 ∨ startIdx ≥ totalLines then []
  else
    let endIdx := if endIdx < 0 then 0 else endIdx
    let endIdx := if endIdx ≥ totalLines then totalLines - 1 else endIdx
    let p : Int × Int := if startIdx > endIdx then (endIdx, startIdx) else (startIdx, endIdx)
    joinNL ((linesArr.drop p.1.toNat).take (p.2.toNat + 1 - p.1.toNat))


/-! Part: Concrete data used by the verification theorems below -/

/-- Example list for the C1 witness. -/
def exC1 : List Example :=
  [⟨"$100".data, JSVal.num ⟨100, 1⟩⟩, ⟨"$250".data, JSVal.num ⟨250, 1⟩⟩]

/-- A single-example list (C2). -/
def exC2single : List Example := [⟨"$100".data, JSVal.num ⟨100, 1⟩⟩]

/-- A trivial continuation for the engine (C2). -/
def restC2 : Constraint → SynthesisEngineResult :=
  fun _ => { success := false, testedExamples := 0, passedExamples := 0, candidatesExplored := 0 }

/-- A one-example constraint (C2). -/
def constraintC2 : Constraint :=
  { ctype := ConstraintType.extraction, description := [],
    examples := [⟨JSVal.str ("$1".data), JSVal.num ⟨1, 1⟩⟩] }

/-- A two-line document (C4). -/
def docC4 : List Str := [("alpha").data, ("beta").data]

/-- A recognized quarter example set with a nonstandard month (C5). -/
def exC5 : List Example := [⟨"Q1-2024".data, JSVal.str ("2024-02".data)⟩]

/-! Part: Theorems -/

theorem fallbackSearch_sound (examples : List Example)
    (h : (fallbackSearch examples).success = true) :
    ∀ ex ∈ examples, jsEq ((fallbackSearch examples).apply ex.input) ex.output = true := by
  intro ex hex
  unfold fallbackSearch at h ⊢
  cases hsc : searchComposition examples with
  | none =>
    try rw [hsc] at h
    exact Bool.noConfusion h
  | some c =>
    try rw [hsc] at h
    try rw [hsc]
    have hpred : (examples.all (fun ex => jsEq (evaluateComposition c ex.input) ex.output)) = true := by
      cases examples with
      | nil => simp at hex
      | cons e0 tl =>
        simp only [searchComposition] at hsc
        have h2 := List.find?_some hsc
        exact h2
    exact List.all_eq_true.mp hpred ex hex

theorem synthesizeFromExamples_reproduces (examples : List Example)
    (h : (synthesizeFromExamples examples).success = true) :
    ∀ ex ∈ examples, jsEq ((synthesizeFromExamples examples).apply ex.input) ex.output = true := by
  intro ex hex
  unfold synthesizeFromExamples at h ⊢
  by_cases he : examples.isEmpty
  · simp [he] at h
  · rw [if_neg he] at h ⊢
    by_cases hq : examples.any (fun e => (searchFrom reQuarterTest e.input 0).isSome)
    · rw [if_pos hq] at h ⊢
      cases hbm : buildQuarterMapper examples with
      | none =>
        try rw [hbm] at h
        try rw [hbm]
        exact fallbackSearch_sound examples h ex hex
      | some mapper =>
        try rw [hbm] at h
        try rw [hbm]
        by_cases hall : (examples.all fun ex => jsEq (JSVal.str (mapper ex.input)) ex.output) = true
        · simp only [hall, if_true]
          exact List.all_eq_true.mp hall ex hex
        · simp only [hall, if_false] at h ⊢
          exact fallbackSearch_sound examples h ex hex
    · rw [if_neg hq] at h ⊢
      exact fallbackSearch_sound examples h ex hex

theorem evalSteps_append_null (pre : List CompositionStep) (s : CompositionStep)
    (post : List CompositionStep) (cur : JSVal)
    (h : PRIMITIVES s.primitive (evalSteps pre cur) s.args = JSVal.null) :
    evalSteps (pre ++ s :: post) cur = JSVal.null := by
  induction pre generalizing cur with
  | nil =>
    simp only [List.nil_append, evalSteps] at h ⊢
    rw [h]
    simp
  | cons p pre' ih =>
    simp only [List.cons_append, evalSteps] at h ⊢
    by_cases hn : PRIMITIVES p.primitive cur p.args = JSVal.null
    · rw [if_pos hn]
    · rw [if_neg hn] at h ⊢
      exact ih _ h

theorem primInputs_no_null (steps : List CompositionStep) (cur : JSVal)
    (h : ¬(cur = JSVal.null)) : JSVal.null ∉ primInputs steps cur := by
  induction steps generalizing cur with
  | nil => simp [primInputs]
  | cons p rest ih =>
    simp only [primInputs, List.mem_cons]
    intro hc
    rcases hc with hc | hc
    · exact h hc.symm
    · by_cases hn : PRIMITIVES p.primitive cur p.args = JSVal.null
      · rw [if_pos hn] at hc; simp at hc
      · rw [if_neg hn] at hc
        exact ih _ hn hc

/-- C10: if some step of a composition evaluates to null, the whole
composition evaluates to null whatever the remaining steps are, and no
primitive in the pipeline is ever applied to a null intermediate value. -/
theorem claim_C10_null_short_circuits (pre : List CompositionStep) (s : CompositionStep)
    (post : List CompositionStep) (input : Str)
    (h : PRIMITIVES s.primitive (evalSteps pre (JSVal.str input)) s.args = JSVal.null) :
    evaluateComposition ⟨pre ++ s :: post⟩ input = JSVal.null ∧
    JSVal.null ∉ primInputs (pre ++ s :: post) (JSVal.str input) := by
  constructor
  · exact evalSteps_append_null pre s post (JSVal.str input) h
  · exact primInputs_no_null _ _ (by simp)

theorem claim_C10_witness :
    evaluateComposition ⟨[step0 Primitive.parseDate, step0 Primitive.toUpperCase]⟩ ("xyz".data)
      = JSVal.null ∧
    JSVal.null ∉ primInputs [step0 Primitive.parseDate, step0 Primitive.toUpperCase]
      (JSVal.str ("xyz".data)) :=
  claim_C10_null_short_circuits [] (step0 Primitive.parseDate) [step0 Primitive.toUpperCase]
    ("xyz".data) (by decide)

/-- C1: a transformation returned by successful synthesis reproduces
every example exactly (strict equality, no coercion), and a program
accepted by testProgram reproduces every example exactly under the
execution function. -/
theorem claim_C1_accepted_reproduces_examples :
    (∀ examples : List Example, (synthesizeFromExamples examples).success = true →
      ∀ ex ∈ examples, jsEq ((synthesizeFromExamples examples).apply ex.input) ex.output = true) ∧
    (∀ (execF : Expr → JSVal → JSVal) (e : Expr) (examples : List ExampleU),
      testProgram execF e examples = true →
      ∀ ex ∈ examples, jsEq (execF e ex.input) ex.output = true) := by
  constructor
  · exact synthesizeFromExamples_reproduces
  · intro execF e examples h ex hex
    exact List.all_eq_true.mp h ex hex


theorem claim_C1_witness :
    jsEq ((synthesizeFromExamples exC1).apply ("$100".data)) (JSVal.num ⟨100, 1⟩) = true ∧
    jsEq ((fun _ _ => JSVal.num ⟨7, 1⟩ : Expr → JSVal → JSVal) (Expr.parseInt (Expr.varE ("input".data))) (JSVal.str ("x7".data))) (JSVal.num ⟨7, 1⟩) = true := by
  constructor
  · exact claim_C1_accepted_reproduces_examples.1 exC1 (by decide)
      ⟨"$100".data, JSVal.num ⟨100, 1⟩⟩ (by decide)
  · exact claim_C1_accepted_reproduces_examples.2 (fun _ _ => JSVal.num ⟨7, 1⟩)
      (Expr.parseInt (Expr.varE ("input".data)))
      [⟨JSVal.str ("x7".data), JSVal.num ⟨7, 1⟩⟩] (by decide)
      ⟨JSVal.str ("x7".data), JSVal.num ⟨7, 1⟩⟩ (by decide)


/-- C2 counterexample: the claim says zero or one example never yields
a transformation, but synthesizeFromExamples only rejects the empty
list — on the single example "$100" to 100 it succeeds and returns a
composition. -/
theorem claim_C2_counterexample :
    (synthesizeFromExamples exC2single).success = true ∧
    (synthesizeFromExamples exC2single).composition.isSome = true := by
  constructor
  · decide
  · decide

/-- C2 amended: the engine entry point (SynthesisEngine.synthesize)
rejects constraints with fewer than minExamples (2 by default)
examples, failing with the needs-more-examples message, whatever the
rest of the pipeline would do; synthesizeFromExamples, by contrast,
fails only on the empty example list. -/
theorem claim_C2_min_examples :
    (∀ (rest : Constraint → SynthesisEngineResult) (c : Constraint),
      c.examples.length < DEFAULT_CONFIG.minExamples →
      (SynthesisEngine.synthesize rest DEFAULT_CONFIG c).success = false ∧
      (SynthesisEngine.synthesize rest DEFAULT_CONFIG c).error
        = some (needMoreMsg DEFAULT_CONFIG.minExamples c.examples.length)) ∧
    ((synthesizeFromExamples []).success = false ∧
     (synthesizeFromExamples []).composition = none) := by
  refine ⟨?_, by decide, by decide⟩
  intro rest c hlt
  unfold SynthesisEngine.synthesize
  rw [if_pos hlt]
  exact ⟨rfl, rfl⟩



theorem claim_C2_witness :
    (SynthesisEngine.synthesize restC2 DEFAULT_CONFIG constraintC2).success = false ∧
    (SynthesisEngine.synthesize restC2 DEFAULT_CONFIG constraintC2).error
      = some (needMoreMsg 2 1) :=
  claim_C2_min_examples.1 restC2 constraintC2 (by decide)

/-- C3 counterexample: the claim says parseDate("30-Feb-24") returns
null, but parseDateImpl performs no calendar validation and returns
"2024-02-30". -/
theorem claim_C3_counterexample :
    parseDateImpl ("30-Feb-24".data) none = some ("2024-02-30".data) := by decide

/-- C3 amended: parseDate on D-Mon-YY expands two-digit years below 50
to 20YY and all others to 19YY and outputs YYYY-MM-DD; it does not
validate calendar days, so "29-Feb-24" gives "2024-02-29" and
"30-Feb-24" gives "2024-02-30" (not null); an unknown month name gives
null.  The year rule is checked for all 100 two-digit years. -/
theorem claim_C3_parseDate_dmonyy :
    parseDateImpl ("29-Feb-24".data) none = some ("2024-02-29".data) ∧
    parseDateImpl ("30-Feb-24".data) none = some ("2024-02-30".data) ∧
    parseDateImpl ("15-Xyz-24".data) none = none ∧
    (("0123456789".data).all fun a => ("0123456789".data).all fun b =>
      decide (parseDateImpl (("15-Jan-").data ++ [a, b]) none =
        some ((if (a.toNat - '0'.toNat) * 10 + (b.toNat - '0'.toNat) < 50
               then ("20").data else ("19").data) ++ a :: b :: ("-01-15").data))) = true := by
  refine ⟨by decide, by decide, by decide, by decide⟩

theorem joinNL_drop_take_one (l : List Str) (k : Nat) (h : k < l.length) :
    joinNL ((l.drop k).take 1) = l.getD k [] := by
  induction l generalizing k with
  | nil => simp at h
  | cons x xs ih =>
    cases k with
    | zero => simp [joinNL]
    | succ k' =>
      simp only [List.drop_succ_cons, List.getD_cons_succ]
      exact ih k' (by simpa using h)


/-- C4 counterexample: the claim says a line index outside the range
fails with a LineOutOfRange error, but locate_line is total and simply
returns the empty string for the out-of-range indices 0 and
line_count+1. -/
theorem claim_C4_counterexample :
    locate_line docC4 0 none = [] ∧ locate_line docC4 3 none = [] := by
  constructor
  · decide
  · decide

/-- C4 amended: a single-line request outside [1, line_count] (0, above
line_count, or below -line_count) returns the empty string rather than
a LineOutOfRange failure; in-range positive indices return that
1-indexed line, and negative indices count from the end (-1 is the
last line). -/
theorem claim_C4_locate_line_bounds (linesArr : List Str) (n : Int) :
    ((n = 0 ∨ n > (linesArr.length : Int) ∨ n < -(linesArr.length : Int)) →
      locate_line linesArr n none = []) ∧
    (1 ≤ n → n ≤ (linesArr.length : Int) →
      locate_line linesArr n none = linesArr.getD (n.toNat - 1) []) ∧
    (-(linesArr.length : Int) ≤ n → n < 0 →
      locate_line linesArr n none = linesArr.getD (linesArr.length - (-n).toNat) []) := by
  unfold locate_line
  dsimp only
  refine ⟨?_, ?_, ?_⟩
  · rintro (rfl | h | h)
    · rw [if_neg (show ¬((0 : Int) < 0) from by omega),
          if_pos (Or.inl (show (0 : Int) - 1 < 0 from by omega))]
    · rw [if_neg (show ¬(n < 0) from by omega),
          if_pos (Or.inr (show n - 1 ≥ (linesArr.length : Int) from by omega))]
    · rw [if_pos (show n < 0 from by omega),
          if_pos (Or.inl (show (linesArr.length : Int) + n < 0 from by omega))]
  · intro h1 h2
    rw [if_neg (show ¬(n < 0) from by omega),
        if_neg (show ¬(n - 1 < 0 ∨ n - 1 ≥ (linesArr.length : Int)) from by omega),
        if_neg (show ¬(n - 1 < 0) from by omega),
        if_neg (show ¬(n - 1 ≥ (linesArr.length : Int)) from by omega),
        if_neg (show ¬(n - 1 > n - 1) from by omega)]
    dsimp only
    rw [show (n - 1).toNat + 1 - (n - 1).toNat = 1 from by omega,
        show (n - 1).toNat = n.toNat - 1 from by omega]
    exact joinNL_drop_take_one linesArr (n.toNat - 1) (by omega)
  · intro h1 h2
    rw [if_pos (show n < 0 from by omega),
        if_neg (show ¬((linesArr.length : Int) + n < 0 ∨
          (linesArr.length : Int) + n ≥ (linesArr.length : Int)) from by omega),
        if_neg (show ¬((linesArr.length : Int) + n < 0) from by omega),
        if_neg (show ¬((linesArr.length : Int) + n ≥ (linesArr.length : Int)) from by omega),
        if_neg (show ¬((linesArr.length : Int) + n > (linesArr.length : Int) + n) from by omega)]
    dsimp only
    rw [show ((linesArr.length : Int) + n).toNat + 1 - ((linesArr.length : Int) + n).toNat = 1
          from by omega,
        show ((linesArr.length : Int) + n).toNat = linesArr.length - (-n).toNat from by omega]
    exact joinNL_drop_take_one linesArr (linesArr.length - (-n).toNat) (by omega)

theorem claim_C4_witness :
    locate_line docC4 (-1) none = ("beta").data :=
  (claim_C4_locate_line_bounds docC4 (-1)).2.2 (by decide) (by decide)


/-- C5 counterexample: the claim says the specializer's mapping sends
quarter 1 to month 01, but on the recognized example set
[("Q1-2024", "2024-02")] — inputs of shape Q[1-4]-YYYY, outputs of
shape YYYY-MM — synthesis succeeds through the quarter specializer and
maps "Q1-2025" to "2025-02", not "2025-01". -/
theorem claim_C5_counterexample :
    (synthesizeFromExamples exC5).success = true ∧
    (synthesizeFromExamples exC5).apply ("Q1-2025".data) = JSVal.str ("2025-02".data) ∧
    ¬((synthesizeFromExamples exC5).apply ("Q1-2025".data) = JSVal.str ("2025-01".data)) := by
  refine ⟨by decide, by decide, by decide⟩

/-- C5 amended: the quarter specializer is checked before the generic
search and, when its mapper reproduces every example, the mapper is
what synthesis returns; for quarters not present in the learned table
the mapper infers month (q-1)*3+1 zero-padded, so quarters 1,2,3,4 map
to months 01,04,07,10 of the matched year; for quarters present in the
table the mapper returns the month learned from the examples. -/
theorem claim_C5_quarter_specializer :
    (∀ (t : List (Str × Str)) (input y : Str),
      (quarterSearch input = some (("1").data, y) →
        t.find? (fun pr => pr.1 == ("1").data) = none →
        mapperOf t input = y ++ '-' :: ("01").data) ∧
      (quarterSearch input = some (("2").data, y) →
        t.find? (fun pr => pr.1 == ("2").data) = none →
        mapperOf t input = y ++ '-' :: ("04").data) ∧
      (quarterSearch input = some (("3").data, y) →
        t.find? (fun pr => pr.1 == ("3").data) = none →
        mapperOf t input = y ++ '-' :: ("07").data) ∧
      (quarterSearch input = some (("4").data, y) →
        t.find? (fun pr => pr.1 == ("4").data) = none →
        mapperOf t input = y ++ '-' :: ("10").data)) ∧
    (∀ (t : List (Str × Str)) (input q y : Str) (pr : Str × Str),
      quarterSearch input = some (q, y) →
      t.find? (fun x => x.1 == q) = some pr →
      mapperOf t input = y ++ '-' :: pr.2) ∧
    (∀ (examples : List Example) (m : Str → Str),
      (examples.any fun e => (searchFrom reQuarterTest e.input 0).isSome) = true →
      buildQuarterMapper examples = some m →
      (examples.all fun ex => jsEq (JSVal.str (m ex.input)) ex.output) = true →
      (synthesizeFromExamples examples).success = true ∧
      (synthesizeFromExamples examples).apply = fun input => JSVal.str (m input)) := by
  refine ⟨?_, ?_, ?_⟩
  · intro t input y
    refine ⟨?_, ?_, ?_, ?_⟩ <;>
      (intro h1 h2
       unfold mapperOf
       rw [h1]
       dsimp only
       rw [h2]
       congr 1)
  · intro t input q y pr h1 h2
    unfold mapperOf
    rw [h1]
    dsimp only
    rw [h2]
  · intro examples m hq hbm hall
    have hne : ¬(examples.isEmpty = true) := by
      cases examples with
      | nil => simp at hq
      | cons a l => simp
    unfold synthesizeFromExamples
    rw [if_neg hne, if_pos hq, hbm]
    dsimp only
    rw [if_pos hall]
    exact ⟨rfl, rfl⟩

theorem claim_C5_witness :
    mapperOf [(("1").data, ("02").data)] ("Q3-2024".data) = ("2024".data) ++ '-' :: ("07").data ∧
    mapperOf [(("1").data, ("02").data)] ("Q1-2025".data) = ("2025".data) ++ '-' :: ("02").data ∧
    (synthesizeFromExamples exC5).success = true := by
  refine ⟨?_, ?_, ?_⟩
  · exact (claim_C5_quarter_specializer.1 [(("1").data, ("02").data)] ("Q3-2024".data)
      ("2024".data)).2.2.1 (by decide) (by decide)
  · exact claim_C5_quarter_specializer.2.1 [(("1").data, ("02").data)] ("Q1-2025".data)
      ("1".data) ("2025".data) (("1").data, ("02").data) (by decide) (by decide)
  · exact (claim_C5_quarter_specializer.2.2 exC5 (mapperOf [(("1").data, ("02").data)])
      (by decide) (by rfl) (by decide)).1

/-- C6: parseCurrency strips one leading currency symbol, chooses the
EU convention (dot thousands, comma decimal) exactly when the last
comma comes after the last dot and the US convention otherwise, and
negates a fully parenthesized amount: "($1.234,56)" parses to
-1234.56, the unparenthesized "$1.234,56" to 1234.56, the US-style
"$1,234.56" to 1234.56, and a euro symbol is stripped the same way. -/
theorem claim_C6_parseCurrency :
    parseCurrencyImpl ("($1.234,56)".data) = some ⟨-123456, 100⟩ ∧
    parseCurrencyImpl ("$1.234,56".data) = some ⟨123456, 100⟩ ∧
    parseCurrencyImpl ("$1,234.56".data) = some ⟨123456, 100⟩ ∧
    parseCurrencyImpl ("€1.234,56".data) = some ⟨123456, 100⟩ := by
  refine ⟨by decide, by decide, by decide, by decide⟩

theorem grepScan_fuel_succ (exec : Nat → Option (Nat × Nat)) (doc : Str) (la : List Str)
    (hW : ∀ li i len, exec li = some (i, len) → li ≤ i ∧ i + len ≤ doc.length) :
    ∀ f start, doc.length + 1 - start ≤ f →
      grepScan exec doc la f start = grepScan exec doc la (f + 1) start := by
  intro f
  induction f with
  | zero =>
    intro start h
    cases hx : exec start with
    | none => simp [grepScan, hx]
    | some il =>
      exfalso
      have hb := hW start il.1 il.2 (by rw [hx])
      omega
  | succ f ih =>
    intro start h
    cases hx : exec start with
    | none => simp only [grepScan, hx]
    | some il =>
      have hb := hW start il.1 il.2 (by rw [hx])
      simp only [grepScan, hx]
      congr 1
      refine ih _ ?_
      by_cases h0 : il.2 = 0 <;> simp only [h0, if_true, if_false] <;> omega

theorem grepScan_fuel_add (exec : Nat → Option (Nat × Nat)) (doc : Str) (la : List Str)
    (hW : ∀ li i len, exec li = some (i, len) → li ≤ i ∧ i + len ≤ doc.length) :
    ∀ d f start, doc.length + 1 - start ≤ f →
      grepScan exec doc la f start = grepScan exec doc la (f + d) start := by
  intro d
  induction d with
  | zero => intro f start h; rfl
  | succ d ih =>
    intro f start h
    rw [ih f start h, show f + (d + 1) = (f + d) + 1 from by omega]
    exact grepScan_fuel_succ exec doc la hW (f + d) start (by omega)

theorem grepScan_execEmpty_range (doc : Str) (la : List Str) :
    ∀ k start, start + k = doc.length + 1 →
      (grepScan (execEmpty doc.length) doc la k start).map GrepHit.index
        = List.range' start k := by
  intro k
  induction k with
  | zero => intro start h; simp [grepScan]
  | succ k ih =>
    intro start h
    have hle : start ≤ doc.length := by omega
    simp only [grepScan, execEmpty, if_pos hle, List.map_cons, List.range'_succ]
    congr 1
    exact ih (start + 1) (by omega)

/-- C7: the grep scan loop terminates for every matcher whose matches
start at or after the current position and fit in the document — any
two sufficient iteration budgets produce the same hit list, so the
budget `doc.length + 1` is exact and the loop cannot run forever even
with zero-width matches; and on a non-empty document the empty pattern
(which matches with width 0 at every position) yields exactly one hit
per code-unit boundary: indices 0, 1, …, doc.length. -/
theorem claim_C7_scan_terminates_empty_pattern :
    (∀ (exec : Nat → Option (Nat × Nat)) (doc : Str) (linesArr : List Str),
      (∀ li i len, exec li = some (i, len) → li ≤ i ∧ i + len ≤ doc.length) →
      ∀ fuel1 fuel2 start, doc.length + 1 - start ≤ fuel1 → doc.length + 1 - start ≤ fuel2 →
        grepScan exec doc linesArr fuel1 start = grepScan exec doc linesArr fuel2 start) ∧
    (∀ (doc : Str) (linesArr : List Str), 1 ≤ doc.length →
      (grepScan (execEmpty doc.length) doc linesArr (doc.length + 1) 0).map GrepHit.index
        = List.range (doc.length + 1)) := by
  constructor
  · intro exec doc linesArr hW fuel1 fuel2 start h1 h2
    rcases Nat.le_total fuel1 fuel2 with hle | hle
    · rw [show fuel2 = fuel1 + (fuel2 - fuel1) from by omega]
      exact grepScan_fuel_add exec doc linesArr hW (fuel2 - fuel1) fuel1 start h1
    · rw [show fuel1 = fuel2 + (fuel1 - fuel2) from by omega]
      exact (grepScan_fuel_add exec doc linesArr hW (fuel1 - fuel2) fuel2 start h2).symm
  · intro doc linesArr _h
    rw [grepScan_execEmpty_range doc linesArr (doc.length + 1) 0 (by omega)]
    exact (List.range_eq_range' (doc.length + 1)).symm

theorem claim_C7_witness :
    grepScan (execEmpty 2) ("ab".data) [("ab".data)] 3 0
      = grepScan (execEmpty 2) ("ab".data) [("ab".data)] 9 0 ∧
    (grepScan (execEmpty 2) ("ab".data) [("ab".data)] 3 0).map GrepHit.index
      = List.range 3 := by
  constructor
  · exact claim_C7_scan_terminates_empty_pattern.1 (execEmpty 2) ("ab".data) [("ab".data)]
      (by
        intro li i len hx
        have hlen : ("ab".data).length = 2 := rfl
        unfold execEmpty at hx
        split at hx
        · cases hx
          omega
        · cases hx)
      3 9 0 (by decide) (by decide)
  · exact claim_C7_scan_terminates_empty_pattern.2 ("ab".data) [("ab".data)] (by decide)

/-- C8: with no flags argument the sandbox grep builds its regex flag
string as "gmi" — the global, multiline and case-insensitive flags are
all enabled, so matching is case-insensitive by default. -/
theorem claim_C8_grep_default_flags :
    grepFlags none = ("gmi").data ∧
    'g' ∈ grepFlags none ∧ 'm' ∈ grepFlags none ∧ 'i' ∈ grepFlags none := by
  refine ⟨by decide, by decide, by decide, by decide⟩

theorem getD_take {α : Type} (l : List α) (n i : Nat) (d : α) (h : i < n) :
    (l.take n).getD i d = l.getD i d := by
  induction l generalizing n i with
  | nil => simp
  | cons x xs ih =>
    cases n with
    | zero => omega
    | succ n' =>
      cases i with
      | zero => simp
      | succ i' =>
        simp only [List.take_succ_cons, List.getD_cons_succ]
        exact ih n' i' (by omega)

/-- C9: candidate enumeration is a pure function of the bound — two
calls with the same bound return the same list — and the order is the
deterministic breadth-first interleaving by program-structure index
and then pattern index: the candidate at position i pairs structure
i/6 with pattern i%6 (5 structures x 6 patterns = 30 candidates). -/
theorem claim_C9_enumeration_deterministic_order (n i : Nat) :
    (enumerateCandidates n).length = min n 30 ∧
    (i < n → i < 30 →
      (enumerateCandidates n).getD i default =
        { struct := programStructures.getD (i / 6) default,
          pattern := EXTRACTION_PATTERNS.getD (i % 6) default }) := by
  constructor
  · unfold enumerateCandidates
    rw [List.length_take]
    congr 1
  · intro h1 h2
    unfold enumerateCandidates
    rw [getD_take _ n i _ h1]
    interval_cases i <;> decide

theorem claim_C9_witness :
    (enumerateCandidates 30).length = min 30 30 ∧
    (enumerateCandidates 30).getD 7 default =
      { struct := programStructures.getD 1 default,
        pattern := EXTRACTION_PATTERNS.getD 1 default } := by
  constructor
  · exact (claim_C9_enumeration_deterministic_order 30 7).1
  · exact (claim_C9_enumeration_deterministic_order 30 7).2 (by decide) (by decide)

end RLM
